import Mathlib

/-!
Verification of the vertical split diff worker
(`go/vt/worker/vertical_split_diff.go`).

The Go code is shallowly embedded: every remote collaborator (topology
server, tablet-manager RPC client, row-stream reader, row differ, schema
diff) is an oracle supplied through an environment record, and each phase
of the worker is a pure Lean function translating the Go control flow
statement by statement.  Stateful pieces (the cleanup-action registry,
the error accumulator) are threaded explicitly.  Errors are strings, as
in Go's `error` values produced by `fmt.Errorf`.
-/

namespace VSDiff

/-- Go `error`: `none` is `nil`, `some e` a non-nil error with text `e`. -/
abbrev Err := String

/-! ## Worker lifecycle: `run` and `Run`

`run` (vertical_split_diff.go:116-147) calls the four phases in order,
wrapping each phase error with phase context, and polls `checkDone`
between phases.  `Run` (vertical_split_diff.go:95-114) wraps `run`,
always drains the cleaner exactly once, merges the cleanup error only
when `run` succeeded, and sets the terminal state.

The phases themselves and `checkDone` are represented by their results:
`RunEnv` holds, for each phase, the error it would return (`none` for
success), and for each inter-phase cancellation check the cancellation
error observed there (`none` when the context is not cancelled).
`checkDone` lives in `worker.go`, outside the sources at hand; it is
modelled from the spec: "A cancellation check runs between phases (not
inside a phase); on cancellation the run jumps straight to CleanUp" —
 it returns the context's cancellation error, unwrapped. -/

/-- Worker states, from the `WorkerState*` constants used by the file. -/
inductive WorkerState
  | stInit | stFindTargets | stSyncReplication | stDiff
  | stCleanUp | stDone | stError
  deriving DecidableEq, Repr

/-- The four major phases invoked by `run`. -/
inductive Phase
  | pInit | pFindTargets | pSync | pDiff
  deriving DecidableEq, Repr

/-- Oracle results for one execution of `run`: each phase's outcome and
the cancellation error (if any) observed by each inter-phase
`checkDone`. -/
structure RunEnv where
  initRes : Option Err
  cancelAfterInit : Option Err
  findTargetsRes : Option Err
  cancelAfterFindTargets : Option Err
  syncRes : Option Err
  cancelAfterSync : Option Err
  diffRes : Option Err
  cleanUpRes : Option Err

/-- `run` (vertical_split_diff.go:116-147): the inner phase sequence.
Returns the error `run` returns together with the list of phases that
were actually invoked.  Phase errors are wrapped with phase context via
`fmt.Errorf`; `checkDone`'s error is returned unwrapped (`return err`). -/
def runInner (env : RunEnv) : Option Err × List Phase :=
  match env.initRes with
  | some e => (some ("init() failed: " ++ e), [Phase.pInit])
  | none =>
    match env.cancelAfterInit with
    | some e => (some e, [Phase.pInit])
    | none =>
      match env.findTargetsRes with
      | some e => (some ("findTargets() failed: " ++ e), [Phase.pInit, Phase.pFindTargets])
      | none =>
        match env.cancelAfterFindTargets with
        | some e => (some e, [Phase.pInit, Phase.pFindTargets])
        | none =>
          match env.syncRes with
          | some e => (some ("synchronizeReplication() failed: " ++ e),
              [Phase.pInit, Phase.pFindTargets, Phase.pSync])
          | none =>
            match env.cancelAfterSync with
            | some e => (some e, [Phase.pInit, Phase.pFindTargets, Phase.pSync])
            | none =>
              match env.diffRes with
              | some e => (some ("diff() failed: " ++ e),
                  [Phase.pInit, Phase.pFindTargets, Phase.pSync, Phase.pDiff])
              | none => (none, [Phase.pInit, Phase.pFindTargets, Phase.pSync, Phase.pDiff])

/-- Everything observable about one execution of `Run`. -/
structure RunTrace where
  result : Option Err
  phases : List Phase
  cleanUpRuns : Nat
  finalState : WorkerState
  deriving DecidableEq, Repr

/-- `Run` (vertical_split_diff.go:95-114).  After the inner `run`, the
state is set to CleanUp and the cleaner is drained (once, recorded in
`cleanUpRuns`).  A cleanup error replaces the result only when `run`
returned nil, otherwise it is only logged.  Terminal state is Error on a
non-nil result, Done otherwise. -/
def Run (env : RunEnv) : RunTrace :=
  let r := runInner env
  let err := r.1
  let err2 :=
    match env.cleanUpRes with
    | some cerr =>
      match err with
      | some _ => err        -- "CleanUp failed in addition to job error": logged only
      | none => some cerr
    | none => err
  match err2 with
  | some e => ⟨some e, r.2, 1, WorkerState.stError⟩
  | none => ⟨none, r.2, 1, WorkerState.stDone⟩

/-! ## Topology data model and the `init` phase -/

/-- A tablet alias (cell + uid in Go); here an opaque identity string,
with `isZero` for `topo.TabletAlias.IsZero()`. -/
structure TabletAlias where
  ident : String
  deriving DecidableEq, Repr

/-- `TabletAlias.IsZero()`: the zero alias has the empty identity. -/
def TabletAlias.isZero (a : TabletAlias) : Bool :=
  a.ident == ""

/-- One `SourceShard` record of the destination shard: keyspace, shard,
uid and the table filter patterns (`Tables`). -/
structure SourceShard where
  keyspace : String
  shard : String
  uid : Nat
  tables : List String
  deriving DecidableEq, Repr

/-- The fields of `topo.KeyspaceInfo` that `init` reads. -/
structure KeyspaceInfo where
  servedFroms : List String
  deriving DecidableEq, Repr

/-- The fields of `topo.ShardInfo` that the worker reads. -/
structure ShardInfo where
  sourceShards : List SourceShard
  masterAlias : TabletAlias
  deriving DecidableEq, Repr

/-! ## Cleanup-action registry

`wrangler.Cleaner` lives outside the sources at hand (it is in the
wrangler package); modelled from the spec: "CleanupStack — ordered,
mutation-capable registry of compensating actions, drained exactly once
at run end", actions "keyed by action name and target identity", with
"find cleanup action by name+target and mutate in place".  An action is
a (name, target, payload) triple; the registry is the ordered list of
pushed actions. -/

/-- Tablet types that appear in the file (`topo.TYPE_SPARE` is the one
the worker writes; rdonly is what `FindWorkerTablet`'s cleanup action
starts with). -/
inductive TabletType
  | rdonly | spare | other (s : String)
  deriving DecidableEq, Repr

/-- Payload of a cleanup action.  `changeSlaveType` carries the mutable
`TabletType` field that `synchronizeReplication` rewrites to spare. -/
inductive ActionKind
  | changeSlaveType (tabletType : TabletType)
  | startSlave
  | startBlp
  deriving DecidableEq, Repr

/-- One registered cleanup action: name, target identity, payload. -/
structure CleanerAction where
  name : String
  target : String
  kind : ActionKind
  deriving DecidableEq, Repr

/-- The cleaner: ordered list of pushed actions. -/
abbrev Cleaner := List CleanerAction

/-- `wrangler.ChangeSlaveTypeActionName`. -/
def changeSlaveTypeActionName : String := "ChangeSlaveTypeAction"

/-- `wrangler.StartSlaveActionName`. -/
def startSlaveActionName : String := "StartSlaveAction"

/-- `wrangler.StartBlpActionName`. -/
def startBlpActionName : String := "StartBlpAction"

/-- `wrangler.RecordStartBlpAction`: push a StartBlp action for the
given tablet. -/
def recordStartBlpAction (c : Cleaner) (target : String) : Cleaner :=
  c ++ [⟨startBlpActionName, target, ActionKind.startBlp⟩]

/-- `wrangler.RecordStartSlaveAction`: push a StartSlave action for the
given tablet. -/
def recordStartSlaveAction (c : Cleaner) (target : String) : Cleaner :=
  c ++ [⟨startSlaveActionName, target, ActionKind.startSlave⟩]

/-- Does the action match name+target? -/
def actionMatches (name target : String) (a : CleanerAction) : Bool :=
  a.name == name && a.target == target

/-- `wrangler.FindChangeSlaveTypeActionByTarget` followed by the in-place
mutation `action.TabletType = topo.TYPE_SPARE`: rewrite the first
ChangeSlaveType action registered for `target` to the given type.
`none` when no such action exists. -/
def setChangeSlaveTypeActionTo (c : Cleaner) (target : String)
    (tt : TabletType) : Option Cleaner :=
  match c with
  | [] => none
  | a :: rest =>
    if actionMatches changeSlaveTypeActionName target a then
      some ({ a with kind := ActionKind.changeSlaveType tt } :: rest)
    else
      match setChangeSlaveTypeActionTo rest target tt with
      | some rest2 => some (a :: rest2)
      | none => none

/-- `wrangler.Cleaner.RemoveActionByName`: remove the first action with
the given name and target; error when none exists. -/
def removeActionByName (c : Cleaner) (name target : String) :
    Except Err Cleaner :=
  match c with
  | [] => Except.error ("cannot find cleaning action " ++ name ++ "/" ++ target)
  | a :: rest =>
    if actionMatches name target a then
      Except.ok rest
    else
      match removeActionByName rest name target with
      | Except.ok rest2 => Except.ok (a :: rest2)
      | Except.error e => Except.error e

/-! ## The `init` phase (vertical_split_diff.go:151-181) -/

/-- What `init` observes and returns: the final error plus the cleaner
(threaded to express that `init` registers no cleanup actions). -/
structure InitTrace where
  err : Option Err
  keyspaceInfo : Option KeyspaceInfo
  shardInfo : Option ShardInfo
  cleaner : Cleaner
  deriving DecidableEq, Repr

/-- `init` (vertical_split_diff.go:151-181): read the keyspace record
and require a ServedFrom; read the shard record and require exactly one
source shard, at least one table filter on it, and a non-zero master
alias.  The topology reads are oracles (`Except` results).  The cleaner
is untouched: `init` never pushes cleanup actions. -/
def init (keyspace shard : String)
    (getKeyspace : Except Err KeyspaceInfo)
    (getShard : Except Err ShardInfo)
    (c : Cleaner) : InitTrace :=
  match getKeyspace with
  | Except.error e =>
    ⟨some ("cannot read keyspace " ++ keyspace ++ ": " ++ e), none, none, c⟩
  | Except.ok ki =>
    if ki.servedFroms.length = 0 then
      ⟨some ("keyspace " ++ keyspace ++ " has no KeyspaceServedFrom"), some ki, none, c⟩
    else
      match getShard with
      | Except.error e =>
        ⟨some ("cannot read shard " ++ keyspace ++ "/" ++ shard ++ ": " ++ e),
          some ki, none, c⟩
      | Except.ok si =>
        match si.sourceShards with
        | [ss] =>
          if ss.tables.length = 0 then
            ⟨some ("shard " ++ keyspace ++ "/" ++ shard ++
              " has no tables in source shard[0]"), some ki, some si, c⟩
          else if si.masterAlias.isZero then
            ⟨some ("shard " ++ keyspace ++ "/" ++ shard ++ " has no master"),
              some ki, some si, c⟩
          else
            ⟨none, some ki, some si, c⟩
        | _ =>
          ⟨some ("shard " ++ keyspace ++ "/" ++ shard ++
            " has bad number of source shards"), some ki, some si, c⟩

/-! ## The `synchronizeReplication` phase (vertical_split_diff.go:224-321)

Replication positions (`myproto.ReplicationPosition`) are opaque,
totally ordered log coordinates; embedded as `Nat`, with `≤` as the
"at least as far as" order.  The remote tablet-manager calls are oracles
in `SyncEnv`; their contracts (`StopSlaveMinimum` stops at or beyond the
requested minimum, `RunBlpUntil` returns the master position after
catching up) are hypotheses of the theorems, not baked into the model. -/

/-- A replication position. -/
abbrev Pos := Nat

/-- `blproto.BlpPosition`: (source uid, position) pair. -/
structure BlpPosition where
  uid : Nat
  position : Pos
  deriving DecidableEq, Repr

/-- `blproto.BlpPositionList`. -/
structure BlpPositionList where
  entries : List BlpPosition
  deriving DecidableEq, Repr

/-- `blproto.BlpPositionList.FindBlpPositionById` (outside the sources
at hand); modelled from the spec: "BlpPositionList: set of (unit id →
position), unique per unit id" with by-uid lookup whose "absence is
fatal". -/
def findBlpPositionById (l : BlpPositionList) (uid : Nat) : Option BlpPosition :=
  l.entries.find? (fun e => e.uid == uid)

/-- Oracles for the remote calls `synchronizeReplication` issues. -/
structure SyncEnv where
  getTablet : TabletAlias → Except Err Unit
  stopBlp : Except Err BlpPositionList
  stopSlaveMinimum : TabletAlias → Pos → Except Err Pos
  runBlpUntil : BlpPositionList → Except Err Pos
  startBlp : Option Err

/-- Everything observable about one execution of `synchronizeReplication`:
its returned error, the cleaner afterwards, and the positions the phase
obtained (each `none` when the phase failed before obtaining it). -/
structure SyncTrace where
  err : Option Err
  cleaner : Cleaner
  masterPausedPos : Option Pos
  sourceStoppedAt : Option Pos
  masterCatchupPos : Option Pos
  destStoppedAt : Option Pos
  removeWarned : Bool
  deriving Repr

/-- `synchronizeReplication` (vertical_split_diff.go:224-321), statement
by statement:
1. `StopBlp` on the destination master; push a StartBlp cleanup action.
2. Look up the paused position for the source shard's uid; stop the
   source tablet at or beyond it (`StopSlaveMinimum`); push StartSlave
   and retype the existing ChangeSlaveType action to spare.
3. `RunBlpUntil` the single-entry stop position list; get the master
   position.
4. `StopSlaveMinimum` the destination tablet at the master position;
   push StartSlave and retype its ChangeSlaveType action to spare.
5. `StartBlp` on the master, then unconditionally remove the StartBlp
   cleanup action (a failed removal only logs a warning), and only then
   check `StartBlp`'s error. -/
def synchronizeReplication (env : SyncEnv) (ss : SourceShard)
    (masterAlias sourceAlias destinationAlias : TabletAlias)
    (c : Cleaner) : SyncTrace :=
  match env.getTablet masterAlias with
  | Except.error e =>
    ⟨some ("synchronizeReplication: cannot get Tablet record for master " ++
      masterAlias.ident ++ ": " ++ e), c, none, none, none, none, false⟩
  | Except.ok _ =>
    match env.stopBlp with
    | Except.error e =>
      ⟨some ("StopBlp on master " ++ masterAlias.ident ++ " failed: " ++ e),
        c, none, none, none, none, false⟩
    | Except.ok blpPositionList =>
      let c1 := recordStartBlpAction c masterAlias.ident
      match findBlpPositionById blpPositionList ss.uid with
      | none =>
        ⟨some ("no binlog position on the master for Uid " ++ toString ss.uid),
          c1, none, none, none, none, false⟩
      | some pos =>
        match env.getTablet sourceAlias with
        | Except.error e => ⟨some e, c1, some pos.position, none, none, none, false⟩
        | Except.ok _ =>
          match env.stopSlaveMinimum sourceAlias pos.position with
          | Except.error e =>
            ⟨some ("cannot stop slave " ++ sourceAlias.ident ++
              " at right binlog position " ++ toString pos.position ++ ": " ++ e),
              c1, some pos.position, none, none, none, false⟩
          | Except.ok stoppedAt =>
            let stopPositionList : BlpPositionList := ⟨[⟨ss.uid, stoppedAt⟩]⟩
            let c2 := recordStartSlaveAction c1 sourceAlias.ident
            match setChangeSlaveTypeActionTo c2 sourceAlias.ident TabletType.spare with
            | none =>
              ⟨some ("cannot find ChangeSlaveType action for " ++ sourceAlias.ident),
                c2, some pos.position, some stoppedAt, none, none, false⟩
            | some c3 =>
              match env.runBlpUntil stopPositionList with
              | Except.error e =>
                ⟨some ("RunBlpUntil on " ++ masterAlias.ident ++ " failed: " ++ e),
                  c3, some pos.position, some stoppedAt, none, none, false⟩
              | Except.ok masterPos =>
                match env.getTablet destinationAlias with
                | Except.error e =>
                  ⟨some e, c3, some pos.position, some stoppedAt, some masterPos,
                    none, false⟩
                | Except.ok _ =>
                  match env.stopSlaveMinimum destinationAlias masterPos with
                  | Except.error e =>
                    ⟨some ("StopSlaveMinimum on " ++ destinationAlias.ident ++
                      " at " ++ toString masterPos ++ " failed: " ++ e),
                      c3, some pos.position, some stoppedAt, some masterPos,
                      none, false⟩
                  | Except.ok destStopped =>
                    let c4 := recordStartSlaveAction c3 destinationAlias.ident
                    match setChangeSlaveTypeActionTo c4 destinationAlias.ident
                        TabletType.spare with
                    | none =>
                      ⟨some ("cannot find ChangeSlaveType action for " ++
                        destinationAlias.ident),
                        c4, some pos.position, some stoppedAt, some masterPos,
                        some destStopped, false⟩
                    | some c5 =>
                      let removed := removeActionByName c5 startBlpActionName
                        masterAlias.ident
                      let c6 := match removed with
                        | Except.ok c6 => c6
                        | Except.error _ => c5
                      let warned := match removed with
                        | Except.ok _ => false
                        | Except.error _ => true
                      match env.startBlp with
                      | some e =>
                        ⟨some ("StartBlp on " ++ masterAlias.ident ++
                          " failed: " ++ e),
                          c6, some pos.position, some stoppedAt, some masterPos,
                          some destStopped, warned⟩
                      | none =>
                        ⟨none, c6, some pos.position, some stoppedAt,
                          some masterPos, some destStopped, warned⟩

/-! ## The `diff` phase (vertical_split_diff.go:328-453)

Schema fetch, table filtering, the schema-equality check, and the
per-table diff tasks.  `GetSchema`, `DiffSchema`, `TableScan`,
`NewRowDiffer` and the differ are external collaborators, supplied as
oracles in `DiffEnv`.  `concurrency.AllErrorRecorder` (outside the
sources at hand) is modelled from the spec: "ErrorAccumulator:
thread-safe multi-error collector" whose aggregate is "empty iff all
tables matched with no I/O failures" — here a list of recorded error
strings whose aggregate error is `none` iff the list is empty.  The
per-table goroutines record into the accumulator concurrently; since
the claims concern only which errors are recorded and whether the
aggregate is empty, the accumulator contents are represented in the
deterministic launch order. -/

/-- `myproto.TableDefinition`: the fields the worker reads. -/
structure TableDefinition where
  name : String
  deriving DecidableEq, Repr

/-- `myproto.SchemaDefinition`: ordered list of table definitions. -/
structure SchemaDefinition where
  tableDefinitions : List TableDefinition
  deriving DecidableEq, Repr

/-- The differ's report (`DiffReport`): what `diff` reads from it. -/
structure DiffReport where
  hasDifferences : Bool
  reportString : String
  deriving DecidableEq, Repr

/-- Aggregate of the error accumulator: `nil` iff nothing recorded. -/
def aggError (recorded : List Err) : Option Err :=
  match recorded with
  | [] => none
  | l => some (String.intercalate "; " l)

/-- A compiled table-filter pattern: its matching function on table
names (`regexp.MatchString`). -/
abbrev Matcher := String → Bool

/-- Oracles for the collaborators the `diff` phase calls. -/
structure DiffEnv where
  destinationSchema : Except Err SchemaDefinition
  sourceSchema : Except Err SchemaDefinition
  patterns : List String
  compile : String → Except Err Matcher
  schemaDiff : SchemaDefinition → SchemaDefinition → List Err
  scanSource : TableDefinition → Except Err Unit
  scanDest : TableDefinition → Except Err Unit
  newRowDiffer : TableDefinition → Except Err Unit
  differGo : TableDefinition → Except Err DiffReport

/-- The inner loop `for _, tableRegexp := range tableRegexps { if
tableRegexp.MatchString(...) { found = true; break } }`. -/
def matchAnyLoop (regexps : List Matcher) (name : String) : Bool :=
  match regexps with
  | [] => false
  | r :: rest => if r name then true else matchAnyLoop rest name

/-- The filtering loop (vertical_split_diff.go:372-387): keep a source
table definition iff some compiled pattern matches its name; dropped
tables are only logged. -/
def removeUnmatched (regexps : List Matcher) :
    List TableDefinition → List TableDefinition
  | [] => []
  | td :: rest =>
    if matchAnyLoop regexps td.name then
      td :: removeUnmatched regexps rest
    else
      removeUnmatched regexps rest

/-- The compilation loop (vertical_split_diff.go:362-369): compile every
pattern, failing at the first pattern that does not compile. -/
def compileAll (compile : String → Except Err Matcher) :
    List String → Except Err (List Matcher)
  | [] => Except.ok []
  | p :: ps =>
    match compile p with
    | Except.error e =>
      Except.error ("cannot compile regexp " ++ p ++ " for table: " ++ e)
    | Except.ok r =>
      match compileAll compile ps with
      | Except.error e => Except.error e
      | Except.ok rs => Except.ok (r :: rs)

/-- One per-table diff task (the goroutine body,
vertical_split_diff.go:404-448): returns the errors it records in the
shared accumulator.  A `TableScan` failure on either side and a
`NewRowDiffer` failure are recorded; a `differ.Go` failure is only
logged (`Logger().Errorf`), not recorded; a report with differences is
recorded. -/
def diffTask (env : DiffEnv) (td : TableDefinition) : List Err :=
  match env.scanSource td with
  | Except.error e => ["TableScan(source) failed: " ++ e]
  | Except.ok _ =>
    match env.scanDest td with
    | Except.error e => ["TableScan(destination) failed: " ++ e]
    | Except.ok _ =>
      match env.newRowDiffer td with
      | Except.error e => ["NewRowDiffer() failed: " ++ e]
      | Except.ok _ =>
        match env.differGo td with
        | Except.error _ => []
        | Except.ok report =>
          if report.hasDifferences then
            ["Table " ++ td.name ++ " has differences: " ++ report.reportString]
          else
            []

/-- Everything observable about one execution of `diff`: its returned
error, the filtered source table list, the tables for which a diff task
was launched, and the contents of the (second) error accumulator that
produces the returned error. -/
structure DiffTrace where
  result : Option Err
  filteredSource : List TableDefinition
  launched : List TableDefinition
  recorded : List Err
  deriving Repr

/-- `diff` (vertical_split_diff.go:328-453): fetch both schemas in
parallel (either failure aborts the phase); compile the filter patterns
(the first compile failure aborts the phase); filter the source tables;
run `DiffSchema` into a fresh accumulator (mismatches are logged as a
warning, but stay in the accumulator); launch one task per destination
table, each recording into that same accumulator; return the
accumulator's aggregate. -/
def diff (env : DiffEnv) : DiffTrace :=
  let fetchErrs :=
    (match env.destinationSchema with
      | Except.error e => [e]
      | Except.ok _ => []) ++
    (match env.sourceSchema with
      | Except.error e => [e]
      | Except.ok _ => [])
  match env.destinationSchema, env.sourceSchema with
  | Except.ok destSchema, Except.ok srcSchema =>
    match compileAll env.compile env.patterns with
    | Except.error e => ⟨some e, [], [], []⟩
    | Except.ok regexps =>
      let filtered := removeUnmatched regexps srcSchema.tableDefinitions
      let schemaErrs := env.schemaDiff destSchema ⟨filtered⟩
      let recorded := schemaErrs ++
        (destSchema.tableDefinitions.map (fun td => diffTask env td)).flatten
      ⟨aggError recorded, filtered, destSchema.tableDefinitions, recorded⟩
  | _, _ => ⟨aggError fetchErrs, [], [], []⟩

/-! ## Admission control of the diff pipeline

`sync2.NewSemaphore(8, 0)` and `sync.WaitGroup` live outside the
sources at hand.  Modelled from the spec: "a counting semaphore
acquired before comparison and released after", "at most a fixed
number (8) may be in their comparison phase simultaneously", and "the
phase completes only when every launched task has joined".  The
pipeline is abstracted to its counts: how many per-table tasks are
still pending (launched goroutines that have not acquired the
semaphore), how many are in their comparison phase (holding a slot),
how many have joined, how many semaphore slots are free, and whether
the phase has returned past `wg.Wait()`. -/

/-- Counting state of the bounded diff pipeline. -/
structure PipeState where
  pending : Nat
  comparing : Nat
  joined : Nat
  slots : Nat
  returned : Bool
  deriving DecidableEq, Repr

/-- Initial pipeline state for `n` destination tables: one pending task
per table, 8 free semaphore slots, not yet returned. -/
def pipeInit (n : Nat) : PipeState :=
  ⟨n, 0, 0, 8, false⟩

/-- One scheduler step of the pipeline: a pending task acquires a free
semaphore slot and enters its comparison phase; a comparing task
finishes, releasing its slot and joining; the phase returns once every
task has joined (`wg.Wait()`). -/
inductive PipeStep : PipeState → PipeState → Prop
  | acquire (s : PipeState) (hp : 0 < s.pending) (hs : 0 < s.slots)
      (hr : s.returned = false) :
      PipeStep s ⟨s.pending - 1, s.comparing + 1, s.joined, s.slots - 1, false⟩
  | release (s : PipeState) (hc : 0 < s.comparing) (hr : s.returned = false) :
      PipeStep s ⟨s.pending, s.comparing - 1, s.joined + 1, s.slots + 1, false⟩
  | ret (s : PipeState) (hp : s.pending = 0) (hc : s.comparing = 0)
      (hr : s.returned = false) :
      PipeStep s ⟨s.pending, s.comparing, s.joined, s.slots, true⟩

/-- States reachable by the pipeline launched over `n` tables, under any
interleaving. -/
def PipeReachable (n : Nat) (s : PipeState) : Prop :=
  Relation.ReflTransGen PipeStep (pipeInit n) s

/-! ## Go regular-expression matching, literal fragment

`regexp.Compile` / `Regexp.MatchString` are Go standard-library
collaborators, outside this repository.  Their documented semantics is
unanchored: `MatchString` reports whether the pattern matches some
substring of the input.  For patterns that are plain literals (no
metacharacters) this is exactly a substring test, embedded here over
character lists. -/

/-- Is `needle` a leading block of `hay`? -/
def charsStartWith : List Char → List Char → Bool
  | [], _ => true
  | _ :: _, [] => false
  | a :: as, b :: bs => a == b && charsStartWith as bs

/-- Does `needle` occur contiguously anywhere inside `hay`? -/
def charsContain (needle : List Char) : List Char → Bool
  | [] => needle.isEmpty
  | c :: rest => charsStartWith needle (c :: rest) || charsContain needle rest

/-- `regexp.Compile` of a literal pattern (unanchored Go semantics):
always compiles, and the compiled matcher tests for a substring
occurrence of the pattern in the table name. -/
def goLiteralCompile (p : String) : Except Err Matcher :=
  Except.ok (fun s => charsContain p.toList s.toList)

/-! ## Concrete environments used by witnesses and counterexamples -/

/-- A destination table named `t1`. -/
def tdT1 : TableDefinition := ⟨"t1"⟩

/-- Environment for the `Differ.Go` read-failure scenario: schemas
fetch fine and are equal, the single table's row streams open fine, the
differ builds fine, but reading during the comparison fails. -/
def envGoFail : DiffEnv where
  destinationSchema := Except.ok ⟨[tdT1]⟩
  sourceSchema := Except.ok ⟨[tdT1]⟩
  patterns := ["t1"]
  compile := goLiteralCompile
  schemaDiff := fun _ _ => []
  scanSource := fun _ => Except.ok ()
  scanDest := fun _ => Except.ok ()
  newRowDiffer := fun _ => Except.ok ()
  differGo := fun _ => Except.error "read failed"

/-- Destination tables `a` and `b`. -/
def tdA : TableDefinition := ⟨"a"⟩

/-- Second destination table for the schema-mismatch scenario. -/
def tdB : TableDefinition := ⟨"b"⟩

/-- Environment for the schema-mismatch scenario: both fetches succeed,
the schema-equality check reports a mismatch, and every per-table task
runs clean. -/
def envSchemaMismatch : DiffEnv where
  destinationSchema := Except.ok ⟨[tdA, tdB]⟩
  sourceSchema := Except.ok ⟨[tdA, tdB]⟩
  patterns := ["a", "b"]
  compile := goLiteralCompile
  schemaDiff := fun _ _ => ["schemas differ"]
  scanSource := fun _ => Except.ok ()
  scanDest := fun _ => Except.ok ()
  newRowDiffer := fun _ => Except.ok ()
  differGo := fun _ => Except.ok ⟨false, ""⟩

/-- A source table named `user_extra`. -/
def tdUserExtra : TableDefinition := ⟨"user_extra"⟩

/-- Environment for the unanchored-match scenario: the single filter
pattern is the literal `user`; the source schema has table
`user_extra`. -/
def envUserExtra : DiffEnv where
  destinationSchema := Except.ok ⟨[tdUserExtra]⟩
  sourceSchema := Except.ok ⟨[tdUserExtra]⟩
  patterns := ["user"]
  compile := goLiteralCompile
  schemaDiff := fun _ _ => []
  scanSource := fun _ => Except.ok ()
  scanDest := fun _ => Except.ok ()
  newRowDiffer := fun _ => Except.ok ()
  differGo := fun _ => Except.ok ⟨false, ""⟩

/-- `regexp.Compile` oracle under which the pattern `(` fails to
compile (Go: missing closing parenthesis) and literal patterns
compile. -/
def compileWithBadParen (p : String) : Except Err Matcher :=
  if p = "(" then Except.error "error parsing regexp: missing closing )"
  else goLiteralCompile p

/-- Environment for the compile-failure scenario: the filter list holds
the invalid pattern `(`. -/
def envBadPattern : DiffEnv where
  destinationSchema := Except.ok ⟨[tdT1]⟩
  sourceSchema := Except.ok ⟨[tdT1]⟩
  patterns := ["("]
  compile := compileWithBadParen
  schemaDiff := fun _ _ => []
  scanSource := fun _ => Except.ok ()
  scanDest := fun _ => Except.ok ()
  newRowDiffer := fun _ => Except.ok ()
  differGo := fun _ => Except.ok ⟨false, ""⟩

/-- A `run` oracle where every phase succeeds, no cancellation is
observed and cleanup succeeds. -/
def runEnvAllOk : RunEnv :=
  ⟨none, none, none, none, none, none, none, none⟩

/-- A `run` oracle where `init` fails and cleanup also fails. -/
def runEnvInitFails : RunEnv :=
  ⟨some "boom", none, none, none, none, none, none, some "cleanup broke"⟩

/-- A `run` oracle observing cancellation right after `findTargets`
returns successfully. -/
def runEnvCancelled : RunEnv :=
  ⟨none, none, none, some "context canceled", none, none, none, none⟩

/-- Keyspace record with one ServedFrom. -/
def ksOk : KeyspaceInfo := ⟨["source_keyspace"]⟩

/-- The single source-shard record used by the concrete scenarios. -/
def ssUid7 : SourceShard := ⟨"source_keyspace", "0", 7, ["user"]⟩

/-- Shard record with exactly one source shard and a master. -/
def siOk : ShardInfo := ⟨[ssUid7], ⟨"cell-0000000100"⟩⟩

/-- Master tablet alias of the concrete scenarios. -/
def aliasMaster : TabletAlias := ⟨"master"⟩

/-- Source tablet alias of the concrete scenarios. -/
def aliasSource : TabletAlias := ⟨"src"⟩

/-- Destination tablet alias of the concrete scenarios. -/
def aliasDest : TabletAlias := ⟨"dst"⟩

/-- Cleaner contents as left by `findTargets`: one ChangeSlaveType
(rdonly) cleanup action per selected tablet, destination first
(vertical_split_diff.go:187-204 selects destination, then source). -/
def cleanerAfterFindTargets (dest source : TabletAlias) : Cleaner :=
  [⟨changeSlaveTypeActionName, dest.ident, ActionKind.changeSlaveType TabletType.rdonly⟩,
   ⟨changeSlaveTypeActionName, source.ident, ActionKind.changeSlaveType TabletType.rdonly⟩]

/-- Remote oracle where every call succeeds: the master pauses with
uid 7 at position 10, `StopSlaveMinimum` stops exactly at the requested
minimum, `RunBlpUntil` reaches position 42, `StartBlp` succeeds. -/
def syncEnvAllOk : SyncEnv where
  getTablet := fun _ => Except.ok ()
  stopBlp := Except.ok ⟨[⟨7, 10⟩]⟩
  stopSlaveMinimum := fun _ m => Except.ok m
  runBlpUntil := fun _ => Except.ok 42
  startBlp := none

/-- Same oracle except the final `StartBlp` call fails. -/
def syncEnvStartBlpFails : SyncEnv :=
  { syncEnvAllOk with startBlp := some "rpc timeout" }

end VSDiff

namespace VSDiff

/-! ## Helper lemmas -/

/-- The inner pattern loop is an existential match over the compiled
patterns. -/
theorem matchAnyLoop_eq_any (rs : List Matcher) (name : String) :
    matchAnyLoop rs name = rs.any (fun r => r name) := by
  induction rs with
  | nil => rfl
  | cons r rest ih =>
    by_cases h : r name <;> simp [matchAnyLoop, h, ih]

/-- The filtering loop is `List.filter` with the existential-match
predicate. -/
theorem removeUnmatched_eq_filter (rs : List Matcher)
    (l : List TableDefinition) :
    removeUnmatched rs l = l.filter (fun td => rs.any (fun r => r td.name)) := by
  induction l with
  | nil => rfl
  | cons td rest ih =>
    by_cases h : matchAnyLoop rs td.name
    · rw [removeUnmatched, if_pos h, ih, List.filter_cons_of_pos, matchAnyLoop_eq_any] at *
      · rw [← matchAnyLoop_eq_any]; exact h
    · rw [removeUnmatched, if_neg h, ih, List.filter_cons_of_neg]
      rw [← matchAnyLoop_eq_any]
      simpa using h

/-- The accumulator aggregate is nil exactly when nothing was
recorded. -/
theorem aggError_eq_none_iff (l : List Err) : aggError l = none ↔ l = [] := by
  cases l <;> simp [aggError]

/-- A block starts with itself. -/
theorem charsStartWith_self_append (p suf : List Char) :
    charsStartWith p (p ++ suf) = true := by
  induction p with
  | nil => rfl
  | cons a as ih => simp [charsStartWith, ih]

/-- A leading occurrence is an occurrence. -/
theorem charsContain_of_startWith (p h : List Char)
    (hs : charsStartWith p h = true) : charsContain p h = true := by
  cases h with
  | nil =>
    cases p with
    | nil => rfl
    | cons a as => simp [charsStartWith] at hs
  | cons c rest => simp [charsContain, hs]

/-- An occurrence in the tail is an occurrence. -/
theorem charsContain_cons (p : List Char) (c : Char) (t : List Char)
    (h : charsContain p t = true) : charsContain p (c :: t) = true := by
  simp [charsContain, h]

/-- A pattern occurring contiguously at any offset of the string is
found: matching is unanchored. -/
theorem charsContain_at_offset (p pre suf : List Char) :
    charsContain p (pre ++ (p ++ suf)) = true := by
  induction pre with
  | nil => exact charsContain_of_startWith _ _ (charsStartWith_self_append p suf)
  | cons c cs ih => exact charsContain_cons _ c _ ih

/-- Characterization of `diff` when both schema fetches succeed and
every filter pattern compiles: the trace in full. -/
theorem diff_ok_trace (env : DiffEnv) (destSchema srcSchema : SchemaDefinition)
    (rs : List Matcher)
    (hd : env.destinationSchema = Except.ok destSchema)
    (hs : env.sourceSchema = Except.ok srcSchema)
    (hc : compileAll env.compile env.patterns = Except.ok rs) :
    diff env =
      ⟨aggError (env.schemaDiff destSchema
          ⟨removeUnmatched rs srcSchema.tableDefinitions⟩ ++
          (destSchema.tableDefinitions.map (fun td => diffTask env td)).flatten),
        removeUnmatched rs srcSchema.tableDefinitions,
        destSchema.tableDefinitions,
        env.schemaDiff destSchema
          ⟨removeUnmatched rs srcSchema.tableDefinitions⟩ ++
          (destSchema.tableDefinitions.map (fun td => diffTask env td)).flatten⟩ := by
  simp [diff, hd, hs, hc]

/-- Characterization of `diff` when a filter pattern fails to compile:
the phase aborts with the compile error, launching nothing. -/
theorem diff_compile_error_trace (env : DiffEnv)
    (destSchema srcSchema : SchemaDefinition) (e : Err)
    (hd : env.destinationSchema = Except.ok destSchema)
    (hs : env.sourceSchema = Except.ok srcSchema)
    (hc : compileAll env.compile env.patterns = Except.error e) :
    diff env = ⟨some e, [], [], []⟩ := by
  simp [diff, hd, hs, hc]

/-- Invariant of the bounded pipeline: the semaphore slots and the
comparing tasks always account for the 8 permits, the task counts
account for all `n` tables, and the phase returns only once every task
has joined. -/
theorem pipe_invariant (n : Nat) (s : PipeState) (h : PipeReachable n s) :
    s.slots + s.comparing = 8 ∧
    s.pending + s.comparing + s.joined = n ∧
    (s.returned = true → s.pending = 0 ∧ s.comparing = 0) := by
  induction h with
  | refl => simp [pipeInit]
  | tail _ step ih =>
    obtain ⟨i1, i2, i3⟩ := ih
    cases step with
    | acquire hp hs hr =>
      exact ⟨by simp; omega, by simp; omega, by simp⟩
    | release hc hr =>
      exact ⟨by simp; omega, by simp; omega, by simp⟩
    | ret hp hc hr =>
      exact ⟨by simpa using i1, by simpa using i2, fun _ => ⟨by simpa using hp, by simpa using hc⟩⟩

/-! ## Claim theorems -/

/-- C2: for every execution of `Run`, the cleanup stack is drained
exactly once regardless of the inner run's outcome; a cleanup failure
becomes the final result only when the inner run returned no error
(otherwise it is only logged); `Run` returns nil iff the terminal state
is Done; and any non-nil result carries the inner run's error
unchanged. -/
theorem c2_run_cleanup_semantics (env : RunEnv) :
    (Run env).cleanUpRuns = 1 ∧
    ((Run env).result = none ↔ (Run env).finalState = WorkerState.stDone) ∧
    ((Run env).result ≠ none → (Run env).finalState = WorkerState.stError) ∧
    (∀ e, (runInner env).1 = some e → (Run env).result = some e) ∧
    ((runInner env).1 = none → (Run env).result = env.cleanUpRes) := by
  rcases hr : runInner env with ⟨err, phases⟩
  cases err <;> cases hcu : env.cleanUpRes <;> simp [Run, hr, hcu]

/-- Witness for C2: `init` fails and cleanup also fails; the final
result is the inner error, not the cleanup error. -/
theorem c2_run_cleanup_semantics_witness :
    (runInner runEnvInitFails).1 = some "init() failed: boom" ∧
    (Run runEnvInitFails).result = some "init() failed: boom" ∧
    (Run runEnvInitFails).finalState = WorkerState.stError := by
  have h := c2_run_cleanup_semantics runEnvInitFails
  have h2 : (Run runEnvInitFails).result = some "init() failed: boom" :=
    h.2.2.2.1 _ rfl
  exact ⟨rfl, h2, h.2.2.1 (by rw [h2]; simp)⟩

/-- C4: with readable keyspace and shard records and exactly one
source-shard record, `init` returns nil iff the keyspace has a
ServedFrom, the source shard has a table filter, and the master alias
is set; otherwise it returns the error of the first violated
precondition (in source order: ServedFrom, tables, master); and `init`
never pushes cleanup actions. -/
theorem c4_init_preconditions (ks sh : String) (ki : KeyspaceInfo)
    (si : ShardInfo) (ss : SourceShard) (c : Cleaner)
    (hone : si.sourceShards = [ss]) :
    ((init ks sh (Except.ok ki) (Except.ok si) c).err = none ↔
      ki.servedFroms ≠ [] ∧ ss.tables ≠ [] ∧ si.masterAlias.isZero = false) ∧
    (ki.servedFroms = [] →
      (init ks sh (Except.ok ki) (Except.ok si) c).err =
        some ("keyspace " ++ ks ++ " has no KeyspaceServedFrom")) ∧
    (ki.servedFroms ≠ [] → ss.tables = [] →
      (init ks sh (Except.ok ki) (Except.ok si) c).err =
        some ("shard " ++ ks ++ "/" ++ sh ++ " has no tables in source shard[0]")) ∧
    (ki.servedFroms ≠ [] → ss.tables ≠ [] → si.masterAlias.isZero = true →
      (init ks sh (Except.ok ki) (Except.ok si) c).err =
        some ("shard " ++ ks ++ "/" ++ sh ++ " has no master")) ∧
    (init ks sh (Except.ok ki) (Except.ok si) c).cleaner = c := by
  by_cases h1 : ki.servedFroms = []
  · simp [init, hone, h1]
  · by_cases h2 : ss.tables = []
    · simp [init, hone, h1, h2, List.length_eq_zero]
    · by_cases h3 : si.masterAlias.isZero
      · simp [init, hone, h1, h2, h3, List.length_eq_zero]
      · simp [init, hone, h1, h2, h3, List.length_eq_zero]

/-- Witness for C4: a valid topology makes `init` succeed with the
cleaner untouched. -/
theorem c4_init_preconditions_witness :
    (init "destination_keyspace" "0"
      (Except.ok ksOk) (Except.ok siOk) []).err = none ∧
    (init "destination_keyspace" "0"
      (Except.ok ksOk) (Except.ok siOk) []).cleaner = [] := by
  have h := c4_init_preconditions "destination_keyspace" "0" ksOk siOk ssUid7 [] rfl
  exact ⟨h.1.mpr ⟨by decide, by decide, by decide⟩, h.2.2.2.2⟩

/-- C8: if the inter-phase cancellation check observes cancellation
after `findTargets` succeeds and before `synchronizeReplication`
starts, then neither `synchronizeReplication` nor `diff` is invoked,
the run's error is exactly the cancellation error (no phase-context
wrap), cleanup still runs exactly once, and the terminal state is
Error. -/
theorem c8_cancellation_after_findTargets (env : RunEnv) (e : Err)
    (h1 : env.initRes = none) (h2 : env.cancelAfterInit = none)
    (h3 : env.findTargetsRes = none)
    (h4 : env.cancelAfterFindTargets = some e) :
    (runInner env).2 = [Phase.pInit, Phase.pFindTargets] ∧
    Phase.pSync ∉ (runInner env).2 ∧
    Phase.pDiff ∉ (runInner env).2 ∧
    (Run env).result = some e ∧
    (Run env).cleanUpRuns = 1 ∧
    (Run env).finalState = WorkerState.stError := by
  have hri : runInner env = (some e, [Phase.pInit, Phase.pFindTargets]) := by
    simp [runInner, h1, h2, h3, h4]
  cases hcu : env.cleanUpRes <;> simp [Run, hri, hcu]

/-- Witness for C8: a concrete run cancelled right after
`findTargets`. -/
theorem c8_cancellation_after_findTargets_witness :
    (runInner runEnvCancelled).2 = [Phase.pInit, Phase.pFindTargets] ∧
    Phase.pSync ∉ (runInner runEnvCancelled).2 ∧
    Phase.pDiff ∉ (runInner runEnvCancelled).2 ∧
    (Run runEnvCancelled).result = some "context canceled" ∧
    (Run runEnvCancelled).cleanUpRuns = 1 ∧
    (Run runEnvCancelled).finalState = WorkerState.stError :=
  c8_cancellation_after_findTargets runEnvCancelled "context canceled"
    rfl rfl rfl rfl

/-- C5: for any number of tables, in every reachable pipeline state at
most 8 per-table diff tasks are in their comparison phase (between
semaphore acquire and release) simultaneously — in particular for 20
tables — and the phase returns only after every launched task has
joined. -/
theorem c5_bounded_concurrency (n : Nat) (s : PipeState)
    (h : PipeReachable n s) :
    s.comparing ≤ 8 ∧
    (s.returned = true →
      s.pending = 0 ∧ s.comparing = 0 ∧ s.joined = n) := by
  obtain ⟨i1, i2, i3⟩ := pipe_invariant n s h
  refine ⟨by omega, fun hret => ?_⟩
  obtain ⟨hp, hc⟩ := i3 hret
  exact ⟨hp, hc, by omega⟩

/-- Witness for C5: with 20 tables, after one task acquires the
semaphore, one task is comparing (≤ 8) and the phase has not
returned. -/
theorem c5_bounded_concurrency_witness :
    (⟨19, 1, 0, 7, false⟩ : PipeState).comparing ≤ 8 ∧
    ((⟨19, 1, 0, 7, false⟩ : PipeState).returned = true →
      (⟨19, 1, 0, 7, false⟩ : PipeState).pending = 0 ∧
      (⟨19, 1, 0, 7, false⟩ : PipeState).comparing = 0 ∧
      (⟨19, 1, 0, 7, false⟩ : PipeState).joined = 20) :=
  c5_bounded_concurrency 20 ⟨19, 1, 0, 7, false⟩
    (Relation.ReflTransGen.single
      (PipeStep.acquire (pipeInit 20) (by decide) (by decide) rfl))

/-- C6: when both schema fetches succeed and every filter pattern
compiles, the filtered source table list contains exactly the source
table definitions whose name matches at least one pattern (existential
match), in their original order (a sublist of the source list); and
dropped tables never cause an error: when the schema check and all
per-table tasks are clean, the phase still returns nil. -/
theorem c6_source_table_filter (env : DiffEnv)
    (destSchema srcSchema : SchemaDefinition) (rs : List Matcher)
    (hd : env.destinationSchema = Except.ok destSchema)
    (hs : env.sourceSchema = Except.ok srcSchema)
    (hc : compileAll env.compile env.patterns = Except.ok rs) :
    (diff env).filteredSource =
      srcSchema.tableDefinitions.filter (fun td => rs.any (fun r => r td.name)) ∧
    (diff env).filteredSource.Sublist srcSchema.tableDefinitions ∧
    (env.schemaDiff destSchema ⟨(diff env).filteredSource⟩ = [] →
      (∀ td ∈ destSchema.tableDefinitions, diffTask env td = []) →
      (diff env).result = none) := by
  have ht := diff_ok_trace env destSchema srcSchema rs hd hs hc
  rw [ht]
  refine ⟨removeUnmatched_eq_filter rs _, ?_, ?_⟩
  · rw [removeUnmatched_eq_filter]
    exact List.filter_sublist _
  · intro hsd htasks
    have hfl : (destSchema.tableDefinitions.map
        (fun td => diffTask env td)).flatten = [] := by
      rw [List.flatten_eq_nil_iff]
      intro l hl
      obtain ⟨td, htd, rfl⟩ := List.mem_map.mp hl
      exact htasks td htd
    rw [hsd, hfl]
    rfl

/-- Witness for C6: the `user` pattern keeps `user_extra`; with equal
schemas and clean tasks the phase returns nil. -/
theorem c6_source_table_filter_witness :
    (diff envUserExtra).filteredSource = [tdUserExtra] ∧
    (diff envUserExtra).result = none := by
  have h := c6_source_table_filter envUserExtra ⟨[tdUserExtra]⟩ ⟨[tdUserExtra]⟩
    [fun s => charsContain "user".toList s.toList] rfl rfl rfl
  refine ⟨?_, h.2.2 (by decide) ?_⟩
  · rw [h.1]; decide
  · intro td htd
    simp only [List.mem_singleton] at htd
    subst htd
    rfl

/-- C10: table-filter patterns are matched unanchored, as substrings of
the table name: a literal pattern occurring at any offset of the name
matches, so pattern `user` keeps table `user_extra`; and a pattern that
fails to compile makes the diff phase return a fatal error before any
comparison starts (no task launched, nothing recorded). -/
theorem c10_unanchored_match_and_compile_failure :
    (∀ p pre suf : List Char, charsContain p (pre ++ (p ++ suf)) = true) ∧
    (goLiteralCompile "user" = Except.ok (fun s =>
      charsContain "user".toList s.toList) ∧
      (diff envUserExtra).filteredSource = [tdUserExtra]) ∧
    (∀ (env : DiffEnv) (destSchema srcSchema : SchemaDefinition) (e : Err),
      env.destinationSchema = Except.ok destSchema →
      env.sourceSchema = Except.ok srcSchema →
      compileAll env.compile env.patterns = Except.error e →
      (diff env).result = some e ∧ (diff env).launched = [] ∧
        (diff env).recorded = []) := by
  refine ⟨charsContain_at_offset, ⟨rfl, by decide⟩, ?_⟩
  intro env destSchema srcSchema e hd hs hc
  rw [diff_compile_error_trace env destSchema srcSchema e hd hs hc]
  exact ⟨rfl, rfl, rfl⟩

/-- Witness for C10: the invalid pattern `(` aborts the phase with the
compile error, with no tasks launched. -/
theorem c10_unanchored_match_and_compile_failure_witness :
    (diff envBadPattern).result =
      some ("cannot compile regexp ( for table: " ++
        "error parsing regexp: missing closing )") ∧
    (diff envBadPattern).launched = [] ∧
    (diff envBadPattern).recorded = [] :=
  (c10_unanchored_match_and_compile_failure).2.2 envBadPattern
    ⟨[tdT1]⟩ ⟨[tdT1]⟩ _ rfl rfl rfl

/-- C1 counterexample: a run whose only table suffers a read failure
during the row-by-row comparison (`differ.Go` returns an error).  The
claim says every such failure is recorded and the phase's error is then
non-nil; in the code the `differ.Go` error is only logged, nothing is
recorded, and the phase returns nil. -/
theorem c1_counterexample :
    envGoFail.differGo tdT1 = Except.error "read failed" ∧
    (diff envGoFail).launched = [tdT1] ∧
    (diff envGoFail).recorded = [] ∧
    (diff envGoFail).result = none := by
  exact ⟨rfl, by decide, by decide, by decide⟩

/-- C1 amended: when both schema fetches succeed and all patterns
compile, every destination table gets its task regardless of sibling
outcomes; the accumulator holds exactly the schema-check mismatches
plus, per table, its row-stream open failures, differ-construction
failures and reported mismatches — a read failure during the
comparison (`differ.Go` error) is only logged, recording nothing — and
the phase's returned error is non-nil iff the accumulator is
non-empty. -/
theorem c1_diff_error_recording (env : DiffEnv)
    (destSchema srcSchema : SchemaDefinition) (rs : List Matcher)
    (hd : env.destinationSchema = Except.ok destSchema)
    (hs : env.sourceSchema = Except.ok srcSchema)
    (hc : compileAll env.compile env.patterns = Except.ok rs) :
    (diff env).launched = destSchema.tableDefinitions ∧
    (diff env).recorded =
      env.schemaDiff destSchema ⟨(diff env).filteredSource⟩ ++
        (destSchema.tableDefinitions.map (fun td => diffTask env td)).flatten ∧
    ((diff env).result = none ↔ (diff env).recorded = []) ∧
    (∀ td e, env.scanSource td = Except.error e →
      diffTask env td = ["TableScan(source) failed: " ++ e]) ∧
    (∀ td e, env.scanSource td = Except.ok () →
      env.scanDest td = Except.error e →
      diffTask env td = ["TableScan(destination) failed: " ++ e]) ∧
    (∀ td e, env.scanSource td = Except.ok () →
      env.scanDest td = Except.ok () →
      env.newRowDiffer td = Except.error e →
      diffTask env td = ["NewRowDiffer() failed: " ++ e]) ∧
    (∀ td r, env.scanSource td = Except.ok () →
      env.scanDest td = Except.ok () →
      env.newRowDiffer td = Except.ok () →
      env.differGo td = Except.ok r → r.hasDifferences = true →
      diffTask env td =
        ["Table " ++ td.name ++ " has differences: " ++ r.reportString]) ∧
    (∀ td e, env.scanSource td = Except.ok () →
      env.scanDest td = Except.ok () →
      env.newRowDiffer td = Except.ok () →
      env.differGo td = Except.error e →
      diffTask env td = []) := by
  have ht := diff_ok_trace env destSchema srcSchema rs hd hs hc
  rw [ht]
  refine ⟨rfl, rfl, aggError_eq_none_iff _, ?_, ?_, ?_, ?_, ?_⟩
  · intro td e h1
    simp [diffTask, h1]
  · intro td e h1 h2
    simp [diffTask, h1, h2]
  · intro td e h1 h2 h3
    simp [diffTask, h1, h2, h3]
  · intro td r h1 h2 h3 h4 h5
    simp [diffTask, h1, h2, h3, h4, h5]
  · intro td e h1 h2 h3 h4
    simp [diffTask, h1, h2, h3, h4]

/-- Witness for amended C1: applied to the read-failure run — the task
launches, records nothing, and the phase result is nil consistently
with the empty accumulator. -/
theorem c1_diff_error_recording_witness :
    (diff envGoFail).launched = [tdT1] ∧
    ((diff envGoFail).result = none ↔ (diff envGoFail).recorded = []) ∧
    diffTask envGoFail tdT1 = [] := by
  have h := c1_diff_error_recording envGoFail ⟨[tdT1]⟩ ⟨[tdT1]⟩
    [fun s => charsContain "t1".toList s.toList] rfl rfl rfl
  exact ⟨h.1, h.2.2.1, h.2.2.2.2.2.2.2 tdT1 "read failed" rfl rfl rfl rfl⟩

/-- C7 counterexample: both fetches succeed, the schema-equality check
reports a mismatch, and both per-table tasks are clean.  The claim says
the mismatch is recorded as a warning only; in the code the mismatch
stays in the accumulator and the phase's returned error is non-nil. -/
theorem c7_counterexample :
    envSchemaMismatch.schemaDiff ⟨[tdA, tdB]⟩ ⟨[tdA, tdB]⟩ = ["schemas differ"] ∧
    diffTask envSchemaMismatch tdA = [] ∧
    diffTask envSchemaMismatch tdB = [] ∧
    (diff envSchemaMismatch).launched = [tdA, tdB] ∧
    (diff envSchemaMismatch).result = some "schemas differ" := by
  exact ⟨rfl, rfl, rfl, by decide, by decide⟩

/-- C7 amended: a schema-check mismatch never causes the diff phase to
return early — exactly one diff task is launched for every destination
table regardless of the check's outcome — but the mismatch is recorded
in the shared accumulator (only a warning is logged), so whenever the
check reports a mismatch the phase's returned error is non-nil. -/
theorem c7_schema_mismatch_not_early_return (env : DiffEnv)
    (destSchema srcSchema : SchemaDefinition) (rs : List Matcher)
    (hd : env.destinationSchema = Except.ok destSchema)
    (hs : env.sourceSchema = Except.ok srcSchema)
    (hc : compileAll env.compile env.patterns = Except.ok rs) :
    (diff env).launched = destSchema.tableDefinitions ∧
    (env.schemaDiff destSchema ⟨(diff env).filteredSource⟩ ≠ [] →
      (diff env).result ≠ none) := by
  have ht := diff_ok_trace env destSchema srcSchema rs hd hs hc
  rw [ht]
  refine ⟨rfl, ?_⟩
  intro hne hnone
  rw [aggError_eq_none_iff] at hnone
  exact hne (List.append_eq_nil.mp hnone).1

/-- Witness for amended C7: the mismatch run launches both tasks and
returns a non-nil error. -/
theorem c7_schema_mismatch_not_early_return_witness :
    (diff envSchemaMismatch).launched = [tdA, tdB] ∧
    (diff envSchemaMismatch).result ≠ none := by
  have h := c7_schema_mismatch_not_early_return envSchemaMismatch
    ⟨[tdA, tdB]⟩ ⟨[tdA, tdB]⟩
    [fun s => charsContain "a".toList s.toList,
     fun s => charsContain "b".toList s.toList] rfl rfl rfl
  exact ⟨h.1, h.2 (by decide)⟩

/-- C3: assuming `StopSlaveMinimum` meets its contract (a returned
position is at least the requested minimum), a successful
`synchronizeReplication` — over any oracle, hence any interleaving of
remote-call latencies — stopped the source unit at a position ≥ the
master's paused position for the source shard's uid, and stopped the
destination unit at a position ≥ the master's position returned by
`RunBlpUntil` after catching up to the source's stop position. -/
theorem c3_sync_positions (env : SyncEnv) (ss : SourceShard)
    (mA sA dA : TabletAlias) (c : Cleaner)
    (hmin : ∀ a m p, env.stopSlaveMinimum a m = Except.ok p → m ≤ p)
    (hok : (synchronizeReplication env ss mA sA dA c).err = none) :
    ∃ (bl : BlpPositionList) (pos : BlpPosition)
      (stoppedAt masterPos destStopped : Pos),
      env.stopBlp = Except.ok bl ∧
      findBlpPositionById bl ss.uid = some pos ∧
      (synchronizeReplication env ss mA sA dA c).masterPausedPos =
        some pos.position ∧
      (synchronizeReplication env ss mA sA dA c).sourceStoppedAt =
        some stoppedAt ∧
      pos.position ≤ stoppedAt ∧
      env.runBlpUntil ⟨[⟨ss.uid, stoppedAt⟩]⟩ = Except.ok masterPos ∧
      (synchronizeReplication env ss mA sA dA c).masterCatchupPos =
        some masterPos ∧
      (synchronizeReplication env ss mA sA dA c).destStoppedAt =
        some destStopped ∧
      masterPos ≤ destStopped := by
  cases hgm : env.getTablet mA with
  | error e => simp [synchronizeReplication, hgm] at hok
  | ok u =>
    cases hsb : env.stopBlp with
    | error e => simp [synchronizeReplication, hgm, hsb] at hok
    | ok bl =>
      cases hfind : findBlpPositionById bl ss.uid with
      | none => simp [synchronizeReplication, hgm, hsb, hfind] at hok
      | some pos =>
        cases hgs : env.getTablet sA with
        | error e => simp [synchronizeReplication, hgm, hsb, hfind, hgs] at hok
        | ok u2 =>
          cases hsm1 : env.stopSlaveMinimum sA pos.position with
          | error e =>
            simp [synchronizeReplication, hgm, hsb, hfind, hgs, hsm1] at hok
          | ok stoppedAt =>
            cases hset1 : setChangeSlaveTypeActionTo
                (recordStartSlaveAction (recordStartBlpAction c mA.ident)
                  sA.ident) sA.ident TabletType.spare with
            | none =>
              simp [synchronizeReplication, hgm, hsb, hfind, hgs, hsm1,
                hset1] at hok
            | some c3 =>
              cases hrbu : env.runBlpUntil ⟨[⟨ss.uid, stoppedAt⟩]⟩ with
              | error e =>
                simp [synchronizeReplication, hgm, hsb, hfind, hgs, hsm1,
                  hset1, hrbu] at hok
              | ok masterPos =>
                cases hgd : env.getTablet dA with
                | error e =>
                  simp [synchronizeReplication, hgm, hsb, hfind, hgs, hsm1,
                    hset1, hrbu, hgd] at hok
                | ok u3 =>
                  cases hsm2 : env.stopSlaveMinimum dA masterPos with
                  | error e =>
                    simp [synchronizeReplication, hgm, hsb, hfind, hgs, hsm1,
                      hset1, hrbu, hgd, hsm2] at hok
                  | ok destStopped =>
                    cases hset2 : setChangeSlaveTypeActionTo
                        (recordStartSlaveAction c3 dA.ident) dA.ident
                        TabletType.spare with
                    | none =>
                      simp [synchronizeReplication, hgm, hsb, hfind, hgs,
                        hsm1, hset1, hrbu, hgd, hsm2, hset2] at hok
                    | some c5 =>
                      refine ⟨bl, pos, stoppedAt, masterPos, destStopped,
                        rfl, hfind, ?_, ?_, hmin _ _ _ hsm1, hrbu, ?_, ?_,
                        hmin _ _ _ hsm2⟩ <;>
                      cases hstart : env.startBlp <;>
                      simp [synchronizeReplication, hgm, hsb, hfind, hgs,
                        hsm1, hset1, hrbu, hgd, hsm2, hset2, hstart]

/-- Witness for C3: the all-success oracle pauses uid 7 at position 10,
stops the source exactly there, catches the master up to 42, and stops
the destination at 42. -/
theorem c3_sync_positions_witness :
    ∃ (bl : BlpPositionList) (pos : BlpPosition)
      (stoppedAt masterPos destStopped : Pos),
      syncEnvAllOk.stopBlp = Except.ok bl ∧
      findBlpPositionById bl ssUid7.uid = some pos ∧
      (synchronizeReplication syncEnvAllOk ssUid7 aliasMaster aliasSource
        aliasDest (cleanerAfterFindTargets aliasDest aliasSource)).masterPausedPos =
        some pos.position ∧
      (synchronizeReplication syncEnvAllOk ssUid7 aliasMaster aliasSource
        aliasDest (cleanerAfterFindTargets aliasDest aliasSource)).sourceStoppedAt =
        some stoppedAt ∧
      pos.position ≤ stoppedAt ∧
      syncEnvAllOk.runBlpUntil ⟨[⟨ssUid7.uid, stoppedAt⟩]⟩ = Except.ok masterPos ∧
      (synchronizeReplication syncEnvAllOk ssUid7 aliasMaster aliasSource
        aliasDest (cleanerAfterFindTargets aliasDest aliasSource)).masterCatchupPos =
        some masterPos ∧
      (synchronizeReplication syncEnvAllOk ssUid7 aliasMaster aliasSource
        aliasDest (cleanerAfterFindTargets aliasDest aliasSource)).destStoppedAt =
        some destStopped ∧
      masterPos ≤ destStopped :=
  c3_sync_positions syncEnvAllOk ssUid7 aliasMaster aliasSource aliasDest
    (cleanerAfterFindTargets aliasDest aliasSource)
    (fun a m p h => by
      have h2 : (Except.ok m : Except Err Pos) = Except.ok p := h
      cases h2
      exact Nat.le_refl m)
    (by decide)

/-- C9: in the final barrier step, the StartBlp cleanup action is
removed unconditionally, before `StartBlp`'s own error is examined:
when every earlier step succeeds (starting from the cleaner left by
`findTargets`) and the resume call fails, `synchronizeReplication`
returns the StartBlp error, yet the cleanup stack no longer contains
any action that would resume filtered replication on the destination
master. -/
theorem c9_resume_action_removed_before_error_check
    (env : SyncEnv) (ss : SourceShard) (mA sA dA : TabletAlias)
    (bl : BlpPositionList) (pos : BlpPosition) (st mp dp : Pos) (e : Err)
    (hne : dA.ident ≠ sA.ident)
    (hgm : env.getTablet mA = Except.ok ())
    (hsb : env.stopBlp = Except.ok bl)
    (hfind : findBlpPositionById bl ss.uid = some pos)
    (hgs : env.getTablet sA = Except.ok ())
    (hsm1 : env.stopSlaveMinimum sA pos.position = Except.ok st)
    (hrbu : env.runBlpUntil ⟨[⟨ss.uid, st⟩]⟩ = Except.ok mp)
    (hgd : env.getTablet dA = Except.ok ())
    (hsm2 : env.stopSlaveMinimum dA mp = Except.ok dp)
    (hstart : env.startBlp = some e) :
    (synchronizeReplication env ss mA sA dA
        (cleanerAfterFindTargets dA sA)).err =
      some ("StartBlp on " ++ mA.ident ++ " failed: " ++ e) ∧
    (synchronizeReplication env ss mA sA dA
        (cleanerAfterFindTargets dA sA)).cleaner =
      [⟨changeSlaveTypeActionName, dA.ident,
          ActionKind.changeSlaveType TabletType.spare⟩,
        ⟨changeSlaveTypeActionName, sA.ident,
          ActionKind.changeSlaveType TabletType.spare⟩,
        ⟨startSlaveActionName, sA.ident, ActionKind.startSlave⟩,
        ⟨startSlaveActionName, dA.ident, ActionKind.startSlave⟩] ∧
    (∀ a ∈ (synchronizeReplication env ss mA sA dA
        (cleanerAfterFindTargets dA sA)).cleaner,
      a.name ≠ startBlpActionName) := by
  have hmain : synchronizeReplication env ss mA sA dA
      (cleanerAfterFindTargets dA sA) =
      ⟨some ("StartBlp on " ++ mA.ident ++ " failed: " ++ e),
        [⟨changeSlaveTypeActionName, dA.ident,
            ActionKind.changeSlaveType TabletType.spare⟩,
          ⟨changeSlaveTypeActionName, sA.ident,
            ActionKind.changeSlaveType TabletType.spare⟩,
          ⟨startSlaveActionName, sA.ident, ActionKind.startSlave⟩,
          ⟨startSlaveActionName, dA.ident, ActionKind.startSlave⟩],
        some pos.position, some st, some mp, some dp, false⟩ := by
    simp [synchronizeReplication, hgm, hsb, hfind, hgs, hsm1, hrbu, hgd,
      hsm2, hstart, cleanerAfterFindTargets, recordStartBlpAction,
      recordStartSlaveAction, setChangeSlaveTypeActionTo,
      removeActionByName, actionMatches, changeSlaveTypeActionName,
      startSlaveActionName, startBlpActionName, hne]
  rw [hmain]
  refine ⟨rfl, rfl, ?_⟩
  intro a ha
  simp only [List.mem_cons, List.mem_singleton] at ha
  rcases ha with rfl | rfl | rfl | rfl | h
  · exact fun hcontra => by simp [changeSlaveTypeActionName, startBlpActionName] at hcontra
  · exact fun hcontra => by simp [changeSlaveTypeActionName, startBlpActionName] at hcontra
  · exact fun hcontra => by simp [startSlaveActionName, startBlpActionName] at hcontra
  · exact fun hcontra => by simp [startSlaveActionName, startBlpActionName] at hcontra
  · exact absurd h (List.not_mem_nil a)

/-- Witness for C9: the concrete oracle whose final `StartBlp` call
times out — the error surfaces, yet no StartBlp cleanup action
remains. -/
theorem c9_resume_action_removed_before_error_check_witness :
    (synchronizeReplication syncEnvStartBlpFails ssUid7 aliasMaster
        aliasSource aliasDest
        (cleanerAfterFindTargets aliasDest aliasSource)).err =
      some ("StartBlp on " ++ aliasMaster.ident ++ " failed: rpc timeout") ∧
    (synchronizeReplication syncEnvStartBlpFails ssUid7 aliasMaster
        aliasSource aliasDest
        (cleanerAfterFindTargets aliasDest aliasSource)).cleaner =
      [⟨changeSlaveTypeActionName, aliasDest.ident,
          ActionKind.changeSlaveType TabletType.spare⟩,
        ⟨changeSlaveTypeActionName, aliasSource.ident,
          ActionKind.changeSlaveType TabletType.spare⟩,
        ⟨startSlaveActionName, aliasSource.ident, ActionKind.startSlave⟩,
        ⟨startSlaveActionName, aliasDest.ident, ActionKind.startSlave⟩] ∧
    (∀ a ∈ (synchronizeReplication syncEnvStartBlpFails ssUid7 aliasMaster
        aliasSource aliasDest
        (cleanerAfterFindTargets aliasDest aliasSource)).cleaner,
      a.name ≠ startBlpActionName) :=
  c9_resume_action_removed_before_error_check syncEnvStartBlpFails ssUid7
    aliasMaster aliasSource aliasDest ⟨[⟨7, 10⟩]⟩ ⟨7, 10⟩ 10 42 42
    "rpc timeout" (by decide) rfl rfl rfl rfl rfl rfl rfl rfl rfl

end VSDiff
